import Mathlib

/-!
# Book-my-event — verification of the booking backend core

Shallow embedding of the booking marketplace backend
(`backend/app/models/*.py`, `backend/app/crud/*.py`,
`backend/app/services/*.py`) and proofs of the specification claims
about it.

Conventions of the embedding:
* Identifiers (UUID strings in the source) are modelled as `Nat`.
* UTC timestamps (`datetime` values in the source) are modelled as `Int`
  epoch seconds.
* SQL floats / Python floats used for rating averages and FX rates are
  modelled as exact rationals `ℚ`.
* A database session's visible state is a `DB` record of the four entity
  tables.  `session.commit()` of an insert/update becomes an explicit
  state transformation; a storage-constraint violation (IntegrityError)
  or a raised `HTTPException` / `ValueError` becomes `Except.error`.
* Fire-and-forget side effects (Celery e-mail task, Redis broadcast) do
  not change the database state and are not modelled beyond the values
  they would publish.
-/

namespace BookMyEvent

/-- `BookingStatus` enum from `app/models/booking.py`. -/
inductive BookingStatus where
  | CONFIRMED
  | CANCELLED
deriving DecidableEq

/-- `Booking` row from `app/models/booking.py`.  The table carries the
unique constraint `uix_slot_email` on `(slot_id, email)`, enforced in
`create_booking` below. -/
structure Booking where
  id : Nat
  slot_id : Nat
  name : String
  email : String
  status : BookingStatus
  booked_at : Int
deriving DecidableEq

/-- `Slot` row from `app/models/slot.py`. -/
structure Slot where
  id : Nat
  event_id : Nat
  start_utc : Int
  max_bookings : Nat
  created_at : Int
deriving DecidableEq

/-- `Review` row from `app/models/review.py`. -/
structure Review where
  id : Nat
  event_id : Nat
  booking_id : Nat
  rating : Nat
  comment : Option String
  created_at : Int
deriving DecidableEq

/-- `Event` row from `app/models/event.py` (columns relevant to the
claims; `search_vector` is storage-internal and omitted). -/
structure Event where
  id : Nat
  title : String
  description : String
  host_name : String
  category : String
  duration_min : Nat
  price_minor : Nat
  currency : String
  rating_avg : Option ℚ
  rating_count : Nat
  timezone : String
  image_url : Option String
  created_at : Int
deriving DecidableEq

/-- The visible state of the relational store: the four entity tables. -/
structure DB where
  events : List Event
  slots : List Slot
  bookings : List Booking
  reviews : List Review
deriving DecidableEq

/-- Errors surfaced by the embedded operations:
`httpConflict` / `httpBadRequest` are the `HTTPException`s raised by the
service layer (with the exact `detail` strings of the source);
`integrityError` is a storage unique-constraint violation at commit;
`valueError` is Python `ValueError`; `nameError` is Python `NameError`
(the missing name); `zeroDivisionError` is Python `ZeroDivisionError`. -/
inductive PyError where
  | httpConflict (detail : String)
  | httpBadRequest (detail : String)
  | integrityError
  | valueError (msg : String)
  | nameError (missing : String)
  | zeroDivisionError
deriving DecidableEq

/-! ## Booking CRUD — `app/crud/bookings.py` -/

/-- `booking_exists(session, slot_id, email)`: True iff a CONFIRMED
booking with this slot and e-mail exists (`crud/bookings.py`). -/
def booking_exists (db : DB) (slot_id : Nat) (email : String) : Bool :=
  0 < db.bookings.countP (fun b =>
    decide (b.slot_id = slot_id ∧ b.email = email ∧ b.status = .CONFIRMED))

/-- `booking_count(session, slot_id)`: number of CONFIRMED bookings for a
slot (`crud/bookings.py`). -/
def booking_count (db : DB) (slot_id : Nat) : Nat :=
  db.bookings.countP (fun b =>
    decide (b.slot_id = slot_id ∧ b.status = .CONFIRMED))

/-- `create_booking(session, slot_id=..., name=..., email=...)` from
`crud/bookings.py`: inserts a new CONFIRMED booking and commits.  The
commit is subject to the storage constraints declared in
`app/models/booking.py`: the primary key on `id`, and the unique
constraint `uix_slot_email` on `(slot_id, email)`, which has no status
qualifier.  If any row (of any status) collides on either, the insert
fails with an IntegrityError and nothing is persisted.  `now` stands for
`datetime.utcnow()` and `fresh_id` for the generated `uuid4` primary
key. -/
def create_booking (db : DB) (slot_id : Nat) (name email : String)
    (now : Int) (fresh_id : Nat) : Except PyError (DB × Booking) :=
  if db.bookings.any (fun b =>
      decide (b.id = fresh_id ∨ (b.slot_id = slot_id ∧ b.email = email))) then
    .error .integrityError
  else
    let booking : Booking :=
      { id := fresh_id, slot_id := slot_id, name := name, email := email,
        status := .CONFIRMED, booked_at := now }
    .ok ({ db with bookings := db.bookings ++ [booking] }, booking)

/-- `cancel_booking(session, booking)` from `crud/bookings.py`: marks the
row as CANCELLED; if it is already CANCELLED it returns the booking
unchanged without touching the store. -/
def crud_cancel_booking (db : DB) (booking : Booking) : DB × Booking :=
  if booking.status = .CANCELLED then (db, booking)
  else
    let cancelled := { booking with status := .CANCELLED }
    ({ db with bookings :=
        db.bookings.map (fun b => if b.id = booking.id then cancelled else b) },
     cancelled)

/-! ## Booking services — `app/services/bookings.py` -/

/-- `make_booking(session, slot=..., name=..., email=...)` from
`app/services/bookings.py`: duplicate check, then capacity check, then
the insert via `crud.create_booking`.  The e-mail task and the Redis
broadcast fired on success do not change the store. -/
def make_booking (db : DB) (slot : Slot) (name email : String)
    (now : Int) (fresh_id : Nat) : Except PyError (DB × Booking) :=
  if booking_exists db slot.id email then
    .error (.httpConflict "You have already booked this slot.")
  else if slot.max_bookings ≤ booking_count db slot.id then
    .error (.httpConflict "Slot is already full.")
  else
    create_booking db slot.id name email now fresh_id

/-- `cancel_booking(session, booking)` from `app/services/bookings.py`:
rejects an already-cancelled booking with HTTP 400, otherwise delegates
to `crud.cancel_booking`. -/
def service_cancel_booking (db : DB) (booking : Booking) :
    Except PyError (DB × Booking) :=
  if booking.status = .CANCELLED then
    .error (.httpBadRequest "Booking already cancelled.")
  else
    .ok (crud_cancel_booking db booking)

/-! ## Slot convenience properties — `app/models/slot.py`

`Slot.bookings` is the ORM relationship: all booking rows whose
`slot_id` is the slot's id, regardless of status. -/

/-- The `Slot.bookings` relationship: every booking row of the slot. -/
def slot_bookings (db : DB) (slot : Slot) : List Booking :=
  db.bookings.filter (fun b => decide (b.slot_id = slot.id))

/-- `Slot.is_full` property: `len(self.bookings) >= self.max_bookings`. -/
def Slot.is_full (db : DB) (slot : Slot) : Bool :=
  slot.max_bookings ≤ (slot_bookings db slot).length

/-- `Slot.remaining` property:
`max(self.max_bookings - len(self.bookings), 0)` (Python ints). -/
def Slot.remaining (db : DB) (slot : Slot) : Int :=
  max ((slot.max_bookings : Int) - ((slot_bookings db slot).length : Int)) 0

/-! ## Request sequences

The API layer (`app/api/v1/bookings.py`) loads the slot (respectively
the booking) from the store by id and hands it to the service function;
a raised `HTTPException` / IntegrityError aborts the request and leaves
the store as it was. -/

/-- Row lookup by primary key for slots. -/
def findSlot (db : DB) (slot_id : Nat) : Option Slot :=
  db.slots.find? (fun s => decide (s.id = slot_id))

/-- Row lookup by primary key for bookings. -/
def findBooking (db : DB) (booking_id : Nat) : Option Booking :=
  db.bookings.find? (fun b => decide (b.id = booking_id))

/-- One booking-domain request: a reservation attempt
(POST /events/{id}/bookings → `make_booking`) or a cancellation
(PATCH /bookings/{id} → service `cancel_booking`). -/
inductive Op where
  | reserve (slot_id : Nat) (name email : String) (now : Int) (fresh_id : Nat)
  | cancel (booking_id : Nat)

/-- Effect of one request on the store: a failed request (error or
unknown id) leaves the store unchanged. -/
def applyOp (db : DB) (op : Op) : DB :=
  match op with
  | .reserve slot_id name email now fresh_id =>
    match findSlot db slot_id with
    | none => db
    | some slot =>
      match make_booking db slot name email now fresh_id with
      | .ok (db2, _) => db2
      | .error _ => db
  | .cancel booking_id =>
    match findBooking db booking_id with
    | none => db
    | some b =>
      match service_cancel_booking db b with
      | .ok (db2, _) => db2
      | .error _ => db

/-- Effect of a sequence of booking requests. -/
def runOps (db : DB) (ops : List Op) : DB :=
  ops.foldl applyOp db

/-- Initial store: a fixed catalogue of events and slots, no bookings
and no reviews yet. -/
def initDB (events : List Event) (slots : List Slot) : DB :=
  { events := events, slots := slots, bookings := [], reviews := [] }

/-! ## Reviews and rating aggregation — `app/crud/events.py`,
`app/crud/reviews.py`, `app/services/review.py` -/

/-- The review rows currently linked to an event
(`WHERE Review.event_id == event_id`). -/
def event_reviews_of (db : DB) (event_id : Nat) : List Review :=
  db.reviews.filter (fun r => decide (r.event_id = event_id))

/-- `recompute_event_rating(session, event_id)` from `app/crud/events.py`:
`AVG(rating)` and `COUNT(id)` over the event's reviews written back to
the denormalised columns; SQL `AVG` over an empty set is NULL. -/
def recompute_event_rating (db : DB) (event_id : Nat) : DB :=
  let rs := event_reviews_of db event_id
  let cnt := rs.length
  let avg : Option ℚ :=
    if cnt = 0 then none
    else some ((rs.map (fun r => (r.rating : ℚ))).sum / (cnt : ℚ))
  { db with events := db.events.map (fun e =>
      if e.id = event_id then { e with rating_avg := avg, rating_count := cnt }
      else e) }

/-- `review_exists(session, booking_id=...)` from `app/crud/reviews.py`. -/
def review_exists (db : DB) (booking_id : Nat) : Bool :=
  0 < db.reviews.countP (fun r => decide (r.booking_id = booking_id))

/-- `create_review(...)` from `app/crud/reviews.py`: re-checks
one-review-per-booking (raising `ValueError`), inserts and commits the
review, then calls `recompute_event_rating` before returning. -/
def create_review (db : DB) (event_id booking_id : Nat) (rating : Nat)
    (comment : Option String) (now : Int) (fresh_id : Nat) :
    Except PyError (DB × Review) :=
  if review_exists db booking_id then
    .error (.valueError "This booking already has a review.")
  else
    let r : Review :=
      { id := fresh_id, event_id := event_id, booking_id := booking_id,
        rating := rating, comment := comment, created_at := now }
    let db1 := { db with reviews := db.reviews ++ [r] }
    .ok (recompute_event_rating db1 event_id, r)

/-- `update_review(session, review, rating=..., comment=...)` from
`app/crud/reviews.py`: patches the fields that are not None, commits,
then calls `recompute_event_rating` for the review's event. -/
def update_review (db : DB) (review : Review) (rating : Option Nat)
    (comment : Option String) : DB × Review :=
  let patched : Review :=
    { review with
        rating := rating.getD review.rating,
        comment := match comment with
          | some c => some c
          | none => review.comment }
  let db1 := { db with reviews :=
      (db.reviews.map (fun r => if r.id = review.id then patched else r)) }
  (recompute_event_rating db1 review.event_id, patched)

/-- `delete_review(session, review)` from `app/crud/reviews.py`: deletes
the row, commits, then calls `recompute_event_rating`. -/
def delete_review (db : DB) (review : Review) : DB :=
  let db1 := { db with reviews :=
      (db.reviews.filter (fun r => decide (¬ r.id = review.id))) }
  recompute_event_rating db1 review.event_id

/-- `add_review(session, booking=..., rating=..., comment=...)` from
`app/services/review.py`: rejects a non-CONFIRMED booking (HTTP 400),
then an already-reviewed booking (HTTP 409), then delegates to
`crud.create_review` with `booking.slot.event_id`.  `slot` is the row of
the `booking.slot` relationship (the slot with `booking.slot_id`),
eagerly loaded by the API layer. -/
def add_review (db : DB) (booking : Booking) (slot : Slot) (rating : Nat)
    (comment : Option String) (now : Int) (fresh_id : Nat) :
    Except PyError (DB × Review) :=
  if ¬ booking.status = .CONFIRMED then
    .error (.httpBadRequest "Cannot review an unconfirmed booking.")
  else if review_exists db booking.id then
    .error (.httpConflict "This booking already has a review.")
  else
    create_review db slot.event_id booking.id rating comment now fresh_id

/-! ## Event search and sorting — `app/services/search.py`

`build_event_query` composes filter predicates and hands the statement to
`_apply_sort`; the store then returns the filtered rows in the ORDER BY
order.  The filter stage is abstracted as a row predicate `φ`; the
`popularity` sort of `_apply_sort` is embedded in full. -/

/-- `timedelta(days=30)` in seconds. -/
def thirty_days : Int := 30 * 86400

/-- The WHERE clause of the popularity subquery:
`Booking.status == "CONFIRMED"` and `Booking.booked_at >= thirty_days_ago`. -/
def recent_confirmed (now : Int) (b : Booking) : Bool :=
  decide (b.status = .CONFIRMED ∧ now - thirty_days ≤ b.booked_at)

/-- `COUNT(Booking.id)` of the popularity subquery for one event: the
subquery inner-joins `Slot` with `Booking` on `Booking.slot_id == Slot.id`,
keeps recent CONFIRMED bookings, and groups by `Slot.event_id`. -/
def pop_count (db : DB) (now : Int) (event_id : Nat) : Nat :=
  (((db.slots.filter (fun s => decide (s.event_id = event_id))).map
      (fun s => db.bookings.countP
        (fun b => decide (b.slot_id = s.id) && recent_confirmed now b))).sum)

/-- The value `popularity_sub.c.pop_count` seen by the outer query after
`isouter=True`: a group exists only if at least one joined row exists, so
an event with no recent confirmed booking gets NULL (`none`). -/
def pop_key (db : DB) (now : Int) (e : Event) : Option Nat :=
  if 0 < pop_count db now e.id then some (pop_count db now e.id) else none

/-- `pop_count.desc().nullslast()`: does key `a` come strictly before
key `b`?  A larger count comes first; NULL comes after every count. -/
def popDescNullsLastBefore : Option Nat → Option Nat → Bool
  | some x, some y => decide (y < x)
  | some _, none => true
  | none, _ => false

/-- The full ORDER BY of the popularity sort: `a` may be placed no later
than `b` iff `a`'s key comes strictly first, or the keys tie and the
secondary key `Event.created_at DESC` allows it. -/
def popularity_le (db : DB) (now : Int) (a b : Event) : Bool :=
  popDescNullsLastBefore (pop_key db now a) (pop_key db now b) ||
  (!popDescNullsLastBefore (pop_key db now b) (pop_key db now a) &&
    decide (b.created_at ≤ a.created_at))

/-- The popularity ORDER BY as a relation on event rows. -/
def popR (db : DB) (now : Int) : Event → Event → Prop :=
  fun a b => popularity_le db now a b = true

instance (db : DB) (now : Int) : DecidableRel (popR db now) :=
  fun a b => instDecidableEqBool (popularity_le db now a b) true

/-- Result order of the filtered event query under `sort=popularity`:
some permutation of the filtered rows sorted by the ORDER BY relation
(the store may return any such permutation; insertion sort fixes one). -/
def popularity_query (db : DB) (now : Int) (φ : Event → Bool) : List Event :=
  List.insertionSort (popR db now) (db.events.filter φ)

/-! ## Currency conversion — `app/services/fx.py` -/

/-- Python dict lookup `rates[code]` over the rate table (first binding
wins; a Python dict has unique keys). -/
def lookupRate (rates : List (String × ℚ)) (code : String) : Option ℚ :=
  (rates.find? (fun p => p.1 == code)).map Prod.snd

/-- Python 3 `round` to an integer: round half to even. -/
def pyRound (q : ℚ) : ℤ :=
  if Int.fract q < 1/2 then ⌊q⌋
  else if 1/2 < Int.fract q then ⌊q⌋ + 1
  else if ⌊q⌋ % 2 = 0 then ⌊q⌋ else ⌊q⌋ + 1

/-- `convert_minor(amount_minor, from_currency, to_currency, rates)` from
`app/services/fx.py`: identity when the currencies are equal; otherwise
`int(round(amount_minor * rates[to_currency] / rates[from_currency]))`,
where a missing key raises `ValueError("Missing FX rate for <code>")`
(the `to` lookup is evaluated first) and Python float division by zero
raises `ZeroDivisionError`. -/
def convert_minor (amount_minor : ℤ) (from_currency to_currency : String)
    (rates : List (String × ℚ)) : Except PyError ℤ :=
  if from_currency = to_currency then .ok amount_minor
  else
    match lookupRate rates to_currency with
    | none => .error (.valueError ("Missing FX rate for " ++ to_currency))
    | some rate_to =>
      match lookupRate rates from_currency with
      | none => .error (.valueError ("Missing FX rate for " ++ from_currency))
      | some rate_from =>
        if rate_from = 0 then .error .zeroDivisionError
        else .ok (pyRound ((amount_minor : ℚ) * (rate_to / rate_from)))

/-! ## `crud.events.list_events` — Python name resolution

`app/crud/events.py` line 130 applies `EventFilter(...)` and line 142
uses `timedelta`, but the module imports neither name.  Python resolves a
name at use time against local bindings, module globals and builtins, and
raises `NameError` when all three miss. -/

/-- The global names bound in module `app/crud/events.py`: the
`__future__` import, `from datetime import datetime`, the `typing`,
`sqlalchemy`, `sqlalchemy.orm`, `sqlmodel` and `app.models` imports, and
the module-level function definitions. -/
def crud_events_module_globals : List String :=
  ["annotations", "datetime",
   "List", "Optional", "Sequence", "Tuple",
   "and_", "desc", "func", "select", "text",
   "joinedload", "selectinload",
   "Session",
   "Booking", "Event", "Review", "Slot",
   "create_event", "get_event", "list_events", "update_event",
   "delete_event", "recompute_event_rating"]

/-- The global names bound in module `app/services/search.py`. -/
def services_search_module_globals : List String :=
  ["annotations", "datetime", "timedelta",
   "Optional",
   "and_", "desc", "func", "or_", "select", "text",
   "Session",
   "Booking", "Event", "Slot",
   "EventFilter", "SortOption",
   "build_event_query", "_apply_sort"]

/-- The Python builtins relevant to these function bodies. -/
def python_builtins : List String :=
  ["len", "max", "min", "int", "str", "round", "isinstance", "tuple"]

/-- Names bound in the local scope of `list_events` once execution
reaches line 130: the parameters, `stmt` (line 126), and
`build_event_query` (local import, line 129). -/
def list_events_locals : List String :=
  ["session", "page", "size", "search", "category", "price_min",
   "price_max", "sort", "stmt", "build_event_query"]

/-- Python name resolution: locals, then module globals, then builtins. -/
def resolves (globals locals : List String) (n : String) : Bool :=
  locals.contains n || globals.contains n || python_builtins.contains n

/-- The global names the body of `list_events` reads, in evaluation
order, up to the first argument expression of the line-130 call:
`select` and `Event` (line 126), `build_event_query` (bound by the
local import on line 129), then `EventFilter` (line 130). -/
def list_events_eval_order : List String :=
  ["select", "Event", "build_event_query", "EventFilter"]

/-- The first name of that prefix that fails to resolve, if any. -/
def list_events_first_unresolved : Option String :=
  list_events_eval_order.find?
    (fun n => ! resolves crud_events_module_globals list_events_locals n)

/-- `list_events(session, page=..., size=..., search=..., category=...,
price_min=..., price_max=..., sort=...)` from `app/crud/events.py`:
execution raises `NameError` at the first unresolvable name of the body.
The fall-through value stands for the rest of the body, which no
execution reaches (and which Python assigns no meaning to) because
`EventFilter` is unbound in the module. -/
def list_events (db : DB) (page size : Nat) (search category : Option String)
    (price_min price_max : Option Nat) (sort : String) :
    Except PyError (List Event × Nat) :=
  match list_events_first_unresolved with
  | some n => .error (.nameError n)
  | none => .ok ((db.events.take size).drop ((page - 1) * size), db.events.length)

/-! ## Specification-side predicates used by the claim statements -/

/-- Sum of the ratings of a list of reviews, as a rational. -/
def sum_ratings (rs : List Review) : ℚ :=
  (rs.map (fun r => (r.rating : ℚ))).sum

/-- Number of booking rows (of any status) for a `(slot, email)` pair. -/
def pair_count (l : List Booking) (sid : Nat) (email : String) : Nat :=
  l.countP (fun b => decide (b.slot_id = sid ∧ b.email = email))

/-- The denormalised rating columns of every row of the given event agree
with the event's current review set: the count is the number of reviews,
and the average is their arithmetic mean — NULL exactly when there are no
reviews, and otherwise the rational `q` with
`q * #reviews = sum of ratings`. -/
def ratingFieldsCorrect (db : DB) (event_id : Nat) : Prop :=
  ∀ e ∈ db.events, e.id = event_id →
    e.rating_count = (event_reviews_of db event_id).length ∧
    match e.rating_avg with
    | none => event_reviews_of db event_id = []
    | some q => event_reviews_of db event_id ≠ [] ∧
        q * ((event_reviews_of db event_id).length : ℚ) =
          sum_ratings (event_reviews_of db event_id)

/-!
# Helper lemmas
-/

/-- `countP` is unchanged by a map that does not change the predicate
value of any element. -/
theorem countP_map_pointwise_eq {α : Type} (l : List α) (f : α → α)
    (p : α → Bool) (h : ∀ x ∈ l, p (f x) = p x) :
    (l.map f).countP p = l.countP p := by
  rw [List.countP_map]
  exact List.countP_congr (fun x hx => by
    simp only [Function.comp_apply, h x hx])

/-- `countP` does not increase under a map that never turns the
predicate from false to true. -/
theorem countP_map_le {α : Type} (l : List α) (f : α → α) (p : α → Bool)
    (h : ∀ x ∈ l, p (f x) = true → p x = true) :
    (l.map f).countP p ≤ l.countP p := by
  rw [List.countP_map]
  exact List.countP_mono_left (fun x hx hp => h x hx hp)

/-- Success characterisation of `make_booking`: the duplicate pre-check
and the capacity pre-check both passed, no stored row collides with the
new row on the primary key or on `(slot_id, email)`, and the new state
is the old one with exactly the new CONFIRMED booking appended. -/
theorem make_booking_ok_cases {db : DB} {slot : Slot} {name email : String}
    {now : Int} {fid : Nat} {db2 : DB} {b : Booking}
    (h : make_booking db slot name email now fid = .ok (db2, b)) :
    booking_exists db slot.id email = false ∧
    booking_count db slot.id < slot.max_bookings ∧
    (∀ x ∈ db.bookings, ¬ (x.id = fid ∨ (x.slot_id = slot.id ∧ x.email = email))) ∧
    b = ⟨fid, slot.id, name, email, .CONFIRMED, now⟩ ∧
    db2 = { db with bookings := db.bookings ++ [b] } := by
  unfold make_booking create_booking at h
  split_ifs at h with h1 h2 h3
  all_goals try exact Except.noConfusion h
  · have h' : ((({ db with bookings := db.bookings ++
        [⟨fid, slot.id, name, email, .CONFIRMED, now⟩] } : DB),
        (⟨fid, slot.id, name, email, .CONFIRMED, now⟩ : Booking)) : DB × Booking)
        = (db2, b) := Except.ok.inj h
    have hdb := congrArg Prod.fst h'
    have hb := congrArg Prod.snd h'
    simp only at hdb hb
    refine ⟨by simpa using h1, by omega, ?_, hb.symm, by rw [← hdb, ← hb]⟩
    have h3' : ∀ x ∈ db.bookings,
        ¬x.id = fid ∧ (x.slot_id = slot.id → ¬x.email = email) := by simpa using h3
    intro x hx
    rcases h3' x hx with ⟨ha, hpair⟩
    rintro (hc | ⟨hc, hd⟩)
    · exact ha hc
    · exact hpair hc hd

/-- The slot, event and review tables are untouched by booking requests. -/
theorem applyOp_tables (db : DB) (op : Op) :
    (applyOp db op).slots = db.slots ∧ (applyOp db op).events = db.events ∧
    (applyOp db op).reviews = db.reviews := by
  cases op with
  | reserve sid nm em now fid =>
    simp only [applyOp]
    cases hfind : findSlot db sid with
    | none => exact ⟨rfl, rfl, rfl⟩
    | some slot =>
      cases hmk : make_booking db slot nm em now fid with
      | error e => simp [hmk]
      | ok p =>
        obtain ⟨db2, bk⟩ := p
        obtain ⟨-, -, -, -, hdb2⟩ := make_booking_ok_cases hmk
        subst hdb2
        simp [hmk]
  | cancel bid =>
    simp only [applyOp]
    cases hfind : findBooking db bid with
    | none => exact ⟨rfl, rfl, rfl⟩
    | some bk =>
      cases hc : service_cancel_booking db bk with
      | error e => simp [hc]
      | ok p =>
        obtain ⟨db2, bk2⟩ := p
        have : db2 = db ∨ db2 = { db with bookings :=
            (db.bookings.map (fun b =>
              if b.id = bk.id then { bk with status := .CANCELLED } else b)) } := by
          unfold service_cancel_booking crud_cancel_booking at hc
          split_ifs at hc with h1
          all_goals try exact Except.noConfusion hc
          all_goals
            have h2 := congrArg Prod.fst (Except.ok.inj hc)
            simp only at h2
          all_goals first
            | exact Or.inl h2.symm
            | exact Or.inr h2.symm
        rcases this with h | h <;> subst h <;> simp [hc]

/-- `findSlot` returns a stored row with the requested id. -/
theorem findSlot_mem {db : DB} {sid : Nat} {slot : Slot}
    (h : findSlot db sid = some slot) : slot ∈ db.slots ∧ slot.id = sid :=
  ⟨List.mem_of_find?_eq_some h, by simpa using List.find?_some h⟩

/-- `findBooking` returns a stored row with the requested id. -/
theorem findBooking_mem {db : DB} {bid : Nat} {bk : Booking}
    (h : findBooking db bid = some bk) : bk ∈ db.bookings ∧ bk.id = bid :=
  ⟨List.mem_of_find?_eq_some h, by simpa using List.find?_some h⟩

/-- Success characterisation of the request-facing cancellation: the
booking was not yet cancelled, and the new state flips its row (matched
by primary key) to CANCELLED. -/
theorem service_cancel_ok_cases {db : DB} {bk : Booking} {db2 : DB} {b2 : Booking}
    (h : service_cancel_booking db bk = .ok (db2, b2)) :
    ¬ bk.status = .CANCELLED ∧
    b2 = { bk with status := .CANCELLED } ∧
    db2 = { db with bookings := (db.bookings.map (fun b =>
      if b.id = bk.id then { bk with status := .CANCELLED } else b)) } := by
  unfold service_cancel_booking crud_cancel_booking at h
  split_ifs at h with h1
  all_goals try exact Except.noConfusion h
  have h2 := congrArg Prod.fst (Except.ok.inj h)
  have h3 := congrArg Prod.snd (Except.ok.inj h)
  simp only at h2 h3
  exact ⟨h1, h3.symm, h2.symm⟩

/-- Flipping one stored row to CANCELLED (ids unique, the row satisfies
the predicate, its cancelled copy does not) decrements `countP` by 1. -/
theorem countP_cancel_decrement {l : List Booking} {bk : Booking}
    (p : Booking → Bool)
    (hn : (l.map Booking.id).Nodup) (hmem : bk ∈ l)
    (hcancel : p { bk with status := .CANCELLED } = false)
    (hb : p bk = true) :
    (l.map (fun b => if b.id = bk.id then { bk with status := .CANCELLED }
      else b)).countP p + 1 = l.countP p := by
  classical
  have hnl : l.Nodup := List.Nodup.of_map _ hn
  have hperm : l.Perm (bk :: l.erase bk) := List.perm_cons_erase hmem
  have herase_eq : (l.erase bk).map (fun b =>
      if b.id = bk.id then { bk with status := .CANCELLED } else b)
      = l.erase bk := by
    have : ∀ x ∈ l.erase bk,
        (if x.id = bk.id then ({ bk with status := .CANCELLED } : Booking)
          else x) = x := by
      intro x hx
      have hxl : x ≠ bk ∧ x ∈ l := (List.Nodup.mem_erase_iff hnl).mp hx
      have hxid : ¬ x.id = bk.id := fun hid =>
        hxl.1 (List.inj_on_of_nodup_map hn hxl.2 hmem hid)
      simp [hxid]
    calc (l.erase bk).map _ = (l.erase bk).map id := List.map_congr_left this
      _ = l.erase bk := List.map_id _
  have hl : l.countP p = (l.erase bk).countP p + 1 := by
    rw [hperm.countP_eq p, List.countP_cons, hb]
    simp
  have hr : (l.map (fun b => if b.id = bk.id then { bk with status := .CANCELLED }
      else b)).countP p = (l.erase bk).countP p := by
    rw [(hperm.map _).countP_eq p]
    simp [List.countP_cons, hcancel, herase_eq]
  omega

/-- Each request either leaves the store unchanged, or is a successful
reservation on a stored slot, or a successful cancellation of a stored
booking. -/
theorem applyOp_cases (db : DB) (op : Op) :
    applyOp db op = db ∨
    (∃ sid nm em now fid slot db2 bk,
      findSlot db sid = some slot ∧
      make_booking db slot nm em now fid = .ok (db2, bk) ∧
      applyOp db op = db2) ∨
    (∃ bid bk db2 b2,
      findBooking db bid = some bk ∧
      service_cancel_booking db bk = .ok (db2, b2) ∧
      applyOp db op = db2) := by
  cases op with
  | reserve sid nm em now fid =>
    cases hfind : findSlot db sid with
    | none => left; simp [applyOp, hfind]
    | some slot =>
      cases hmk : make_booking db slot nm em now fid with
      | error e => left; simp [applyOp, hfind, hmk]
      | ok p =>
        obtain ⟨db2, bk⟩ := p
        right; left
        exact ⟨sid, nm, em, now, fid, slot, db2, bk, hfind, hmk,
          by simp [applyOp, hfind, hmk]⟩
  | cancel bid =>
    cases hfind : findBooking db bid with
    | none => left; simp [applyOp, hfind]
    | some bk =>
      cases hc : service_cancel_booking db bk with
      | error e => left; simp [applyOp, hfind, hc]
      | ok p =>
        obtain ⟨db2, b2⟩ := p
        right; right
        exact ⟨bid, bk, db2, b2, hfind, hc, by simp [applyOp, hfind, hc]⟩

/-- One request preserves the per-slot capacity bound. -/
theorem capacity_applyOp {db : DB} (op : Op)
    (hn : (db.slots.map Slot.id).Nodup)
    (hinv : ∀ s ∈ db.slots, booking_count db s.id ≤ s.max_bookings) :
    ∀ s ∈ (applyOp db op).slots,
      booking_count (applyOp db op) s.id ≤ s.max_bookings := by
  intro s hs
  rw [(applyOp_tables db op).1] at hs
  rcases applyOp_cases db op with heq |
    ⟨sid, nm, em, now, fid, slot, db2, bk, hfind, hmk, heq⟩ |
    ⟨bid, bk, db2, b2, hfind, hc, heq⟩
  · rw [heq]; exact hinv s hs
  · rw [heq]
    obtain ⟨hex, hcap, hfree, hbk, hdb2⟩ := make_booking_ok_cases hmk
    subst hdb2
    subst hbk
    unfold booking_count at hcap hinv ⊢
    simp only [List.countP_append]
    by_cases hid : slot.id = s.id
    · have hs2 : s = slot :=
        List.inj_on_of_nodup_map hn hs (findSlot_mem hfind).1 hid.symm
      rw [hs2]
      have hone : List.countP (fun b =>
          decide (b.slot_id = slot.id ∧ b.status = BookingStatus.CONFIRMED))
          ([{ id := fid, slot_id := slot.id, name := nm, email := em,
              status := BookingStatus.CONFIRMED, booked_at := now }] :
            List Booking) = 1 := by simp
      rw [hone]
      omega
    · have hzero : List.countP (fun b =>
          decide (b.slot_id = s.id ∧ b.status = BookingStatus.CONFIRMED))
          ([{ id := fid, slot_id := slot.id, name := nm, email := em,
              status := BookingStatus.CONFIRMED, booked_at := now }] :
            List Booking) = 0 := by simp [hid]
      rw [hzero]
      have := hinv s hs
      omega
  · rw [heq]
    obtain ⟨h1, hb2, hdb2⟩ := service_cancel_ok_cases hc
    subst hdb2
    unfold booking_count at hinv ⊢
    refine le_trans (countP_map_le _ _ _ ?_) (hinv s hs)
    intro x hx hp
    by_cases hxid : x.id = bk.id
    · simp [hxid] at hp
    · simpa [hxid] using hp

/-- One request preserves primary-key uniqueness of booking rows and the
at-most-one-row bound per `(slot, email)` pair. -/
theorem pair_applyOp {db : DB} (op : Op)
    (hn : (db.bookings.map Booking.id).Nodup)
    (hinv : ∀ sid email, pair_count db.bookings sid email ≤ 1) :
    ((applyOp db op).bookings.map Booking.id).Nodup ∧
    (∀ sid email, pair_count (applyOp db op).bookings sid email ≤ 1) := by
  rcases applyOp_cases db op with heq |
    ⟨sid0, nm, em, now, fid, slot, db2, bk, hfind, hmk, heq⟩ |
    ⟨bid, bk, db2, b2, hfind, hc, heq⟩
  · rw [heq]; exact ⟨hn, hinv⟩
  · rw [heq]
    obtain ⟨hex, hcap, hfree, hbk, hdb2⟩ := make_booking_ok_cases hmk
    subst hdb2
    subst hbk
    constructor
    · rw [List.map_append]
      refine (List.nodup_append).mpr ⟨hn, List.nodup_singleton _, ?_⟩
      intro a ha hb
      simp only [List.map_cons, List.map_nil, List.mem_singleton] at hb
      obtain ⟨x, hx, hxa⟩ := List.mem_map.mp ha
      exact (hfree x hx) (Or.inl (by rw [hxa, hb]))
    · intro sid email
      unfold pair_count at hinv ⊢
      rw [List.countP_append]
      by_cases hp : slot.id = sid ∧ em = email
      · have hzero : List.countP
            (fun b => decide (b.slot_id = sid ∧ b.email = email))
            db.bookings = 0 := by
          rw [List.countP_eq_zero]
          intro x hx hpx
          simp only [decide_eq_true_eq] at hpx
          exact (hfree x hx) (Or.inr ⟨by rw [hpx.1, ← hp.1], by rw [hpx.2, ← hp.2]⟩)
        rw [hzero, List.countP_cons, List.countP_nil]
        split_ifs <;> omega
      · rw [List.countP_cons, List.countP_nil]
        split_ifs with hnb
        · simp only [decide_eq_true_eq] at hnb
          exact absurd hnb hp
        · have := hinv sid email
          omega
  · rw [heq]
    obtain ⟨h1, hb2, hdb2⟩ := service_cancel_ok_cases hc
    subst hdb2
    have hbkmem := (findBooking_mem hfind).1
    constructor
    · have hmaps : (db.bookings.map (fun b =>
          if b.id = bk.id then { bk with status := .CANCELLED } else b)).map
          Booking.id = db.bookings.map Booking.id := by
        rw [List.map_map]
        refine List.map_congr_left ?_
        intro x hx
        by_cases hxid : x.id = bk.id
        · simp [Function.comp, hxid]
        · simp [Function.comp, hxid]
      rw [hmaps]
      exact hn
    · intro sid email
      unfold pair_count at hinv ⊢
      rw [countP_map_pointwise_eq]
      · exact hinv sid email
      · intro x hx
        by_cases hxid : x.id = bk.id
        · have hxbk : x = bk := List.inj_on_of_nodup_map hn hx hbkmem hxid
          subst hxbk
          simp
        · simp [hxid]

/-- A request sequence preserves primary-key uniqueness and the pair
bound. -/
theorem pair_runOps (ops : List Op) (db : DB)
    (hn : (db.bookings.map Booking.id).Nodup)
    (hinv : ∀ sid email, pair_count db.bookings sid email ≤ 1) :
    ((runOps db ops).bookings.map Booking.id).Nodup ∧
    (∀ sid email, pair_count (runOps db ops).bookings sid email ≤ 1) := by
  induction ops generalizing db with
  | nil => exact ⟨hn, hinv⟩
  | cons op ops ih =>
    simp only [runOps, List.foldl_cons] at *
    obtain ⟨hn2, hinv2⟩ := pair_applyOp op hn hinv
    exact ih (applyOp db op) hn2 hinv2

/-- A request sequence preserves the per-slot capacity bound. -/
theorem capacity_runOps (ops : List Op) (db : DB)
    (hn : (db.slots.map Slot.id).Nodup)
    (hinv : ∀ s ∈ db.slots, booking_count db s.id ≤ s.max_bookings) :
    ∀ s ∈ (runOps db ops).slots,
      booking_count (runOps db ops) s.id ≤ s.max_bookings := by
  induction ops generalizing db with
  | nil => simpa [runOps] using hinv
  | cons op ops ih =>
    simp only [runOps, List.foldl_cons] at *
    exact ih (applyOp db op)
      (by rw [(applyOp_tables db op).1]; exact hn)
      (capacity_applyOp op hn hinv)

/-- When both pre-checks pass and no stored row collides with the new one
on the primary key or on `(slot_id, email)`, `make_booking` persists and
returns the new CONFIRMED booking. -/
theorem make_booking_succeeds {db : DB} {slot : Slot} {name email : String}
    {now : Int} {fid : Nat}
    (h1 : booking_exists db slot.id email = false)
    (h2 : booking_count db slot.id < slot.max_bookings)
    (h3 : ∀ x ∈ db.bookings,
      ¬ (x.id = fid ∨ (x.slot_id = slot.id ∧ x.email = email))) :
    make_booking db slot name email now fid =
      .ok ({ db with bookings := db.bookings ++
          [⟨fid, slot.id, name, email, .CONFIRMED, now⟩] },
        ⟨fid, slot.id, name, email, .CONFIRMED, now⟩) := by
  have hany : (db.bookings.any (fun b =>
      decide (b.id = fid ∨ (b.slot_id = slot.id ∧ b.email = email)))) = false :=
    List.any_eq_false.mpr (fun x hx => by
      simpa using decide_eq_false (h3 x hx))
  unfold make_booking create_booking
  split_ifs with g1 g2 g3
  · exact absurd g1 (by simp [h1])
  · exact absurd g2 (not_le.mpr h2)
  · rw [hany] at g3
    exact absurd g3 Bool.false_ne_true
  · rfl

/-!
# Claim theorems
-/

/-- Claim C1: for every slot with capacity `max_bookings = N`, after any
sequence of reservation (`make_booking`) and cancellation
(`cancel_booking`) requests starting from a catalogue with no bookings,
the number of bookings with status CONFIRMED referring to that slot is
at most `N`.  The hypothesis is the slot table's primary key: stored
slot ids are distinct. -/
theorem C1_capacity_invariant (events : List Event) (slots : List Slot)
    (ops : List Op) (hn : (slots.map Slot.id).Nodup) :
    ∀ s ∈ (runOps (initDB events slots) ops).slots,
      booking_count (runOps (initDB events slots) ops) s.id ≤ s.max_bookings :=
  capacity_runOps ops (initDB events slots) hn
    (fun s _ => by simp [booking_count, initDB])

/-- Witness for C1: a slot of capacity 1 under two reservation attempts
and a cancellation ends with at most one CONFIRMED booking. -/
theorem C1_capacity_invariant_witness :
    booking_count (runOps (initDB [] [⟨1, 1, 0, 1, 0⟩])
      [.reserve 1 "alice" "a" 0 1, .reserve 1 "bob" "b" 0 2, .cancel 1,
       .reserve 1 "carol" "c" 5 3]) 1 ≤ 1 := by
  have h := C1_capacity_invariant [] [⟨1, 1, 0, 1, 0⟩]
    [.reserve 1 "alice" "a" 0 1, .reserve 1 "bob" "b" 0 2, .cancel 1,
     .reserve 1 "carol" "c" 5 3] (by decide)
  exact h ⟨1, 1, 0, 1, 0⟩ (by decide)

/-- Claim C5: after any request sequence from a catalogue with no
bookings, at most one booking row exists per `(slot, email)` pair
regardless of status; and a reservation attempt for a pair whose earlier
booking was cancelled never succeeds in creating a second booking (the
insert collides with the status-blind `uix_slot_email` constraint). -/
theorem C5_unique_pair (events : List Event) (slots : List Slot)
    (ops : List Op) :
    (∀ sid email,
      pair_count (runOps (initDB events slots) ops).bookings sid email ≤ 1) ∧
    (∀ (db : DB) (slot : Slot) (name email : String) (now : Int) (fid : Nat),
      (∃ b ∈ db.bookings, b.slot_id = slot.id ∧ b.email = email ∧
        b.status = .CANCELLED) →
      ∀ db2 nb, ¬ make_booking db slot name email now fid = .ok (db2, nb)) := by
  constructor
  · exact (pair_runOps ops (initDB events slots) (by simp [initDB])
      (fun sid email => by simp [pair_count, initDB])).2
  · rintro db slot name email now fid ⟨b, hb, hbs, hbe, hbst⟩ db2 nb hmk
    obtain ⟨-, -, hfree, -, -⟩ := make_booking_ok_cases hmk
    exact (hfree b hb) (Or.inr ⟨hbs, hbe⟩)

/-- Witness for C5: with a CANCELLED booking stored for `(slot 1, "a")`,
a new reservation attempt for the same pair does not return a booking. -/
theorem C5_unique_pair_witness :
    ¬ make_booking ⟨[], [⟨1, 1, 0, 5, 0⟩], [⟨7, 1, "n", "a", .CANCELLED, 0⟩], []⟩
        ⟨1, 1, 0, 5, 0⟩ "m" "a" 3 8 =
      .ok (⟨[], [⟨1, 1, 0, 5, 0⟩], [⟨7, 1, "n", "a", .CANCELLED, 0⟩,
        ⟨8, 1, "m", "a", .CONFIRMED, 3⟩], []⟩, ⟨8, 1, "m", "a", .CONFIRMED, 3⟩) :=
  (C5_unique_pair [] [] []).2
    ⟨[], [⟨1, 1, 0, 5, 0⟩], [⟨7, 1, "n", "a", .CANCELLED, 0⟩], []⟩
    ⟨1, 1, 0, 5, 0⟩ "m" "a" 3 8
    ⟨⟨7, 1, "n", "a", .CANCELLED, 0⟩, by decide, by decide, by decide, by decide⟩
    _ _

/-- Claim C2 as stated is false on the code: with a CANCELLED booking
stored for `(slot 1, "a")`, both pre-checks pass (no CONFIRMED duplicate,
0 < capacity 5), yet `make_booking` does not persist a CONFIRMED booking:
the insert collides with the `uix_slot_email` storage constraint, which
has no status qualifier, and fails with an IntegrityError. -/
theorem C2_preconditions_counterexample :
    booking_exists ⟨[], [⟨1, 1, 0, 5, 0⟩], [⟨7, 1, "n", "a", .CANCELLED, 0⟩], []⟩
      1 "a" = false ∧
    booking_count ⟨[], [⟨1, 1, 0, 5, 0⟩], [⟨7, 1, "n", "a", .CANCELLED, 0⟩], []⟩
      1 < 5 ∧
    make_booking ⟨[], [⟨1, 1, 0, 5, 0⟩], [⟨7, 1, "n", "a", .CANCELLED, 0⟩], []⟩
      ⟨1, 1, 0, 5, 0⟩ "m" "a" 3 8 = .error .integrityError :=
  ⟨rfl, by decide, rfl⟩

/-- Claim C2 amended: `make_booking` evaluates its two preconditions in
order before any write — an existing CONFIRMED booking for
`(slot.id, email)` fails with DuplicateBooking (HTTP 409, "You have
already booked this slot.") and nothing is inserted; otherwise a CONFIRMED
count at or above `slot.max_bookings` fails with SlotFull (HTTP 409,
"Slot is already full.") and nothing is inserted; otherwise, if a stored
row of any status collides with the new row on the primary key or on
`(slot.id, email)` (in particular a CANCELLED booking of the pair), the
insert fails with an IntegrityError and nothing is inserted; otherwise it
persists and returns a new booking with status CONFIRMED. -/
theorem C2_preconditions_amended (db : DB) (slot : Slot)
    (name email : String) (now : Int) (fid : Nat) :
    (booking_exists db slot.id email = true →
      make_booking db slot name email now fid =
        .error (.httpConflict "You have already booked this slot.")) ∧
    (booking_exists db slot.id email = false →
      slot.max_bookings ≤ booking_count db slot.id →
      make_booking db slot name email now fid =
        .error (.httpConflict "Slot is already full.")) ∧
    (booking_exists db slot.id email = false →
      booking_count db slot.id < slot.max_bookings →
      (∃ x ∈ db.bookings, x.id = fid ∨ (x.slot_id = slot.id ∧ x.email = email)) →
      make_booking db slot name email now fid = .error .integrityError) ∧
    (booking_exists db slot.id email = false →
      booking_count db slot.id < slot.max_bookings →
      (∀ x ∈ db.bookings, ¬ (x.id = fid ∨ (x.slot_id = slot.id ∧ x.email = email))) →
      make_booking db slot name email now fid =
        .ok ({ db with bookings := db.bookings ++
            [⟨fid, slot.id, name, email, .CONFIRMED, now⟩] },
          ⟨fid, slot.id, name, email, .CONFIRMED, now⟩)) := by
  refine ⟨?_, ?_, ?_, ?_⟩
  · intro h1
    simp [make_booking, h1]
  · intro h1 h2
    simp [make_booking, h1, h2]
  · intro h1 h2 h3
    obtain ⟨x, hx, hxp⟩ := h3
    have hany : (db.bookings.any (fun b =>
        decide (b.id = fid ∨ (b.slot_id = slot.id ∧ b.email = email)))) = true :=
      List.any_eq_true.mpr ⟨x, hx, decide_eq_true hxp⟩
    unfold make_booking create_booking
    split_ifs with g1 g2
    · exact absurd g1 (by simp [h1])
    · exact absurd g2 (not_le.mpr h2)
    · rfl
  · intro h1 h2 h3
    exact make_booking_succeeds h1 h2 h3

/-- Witness for the amended C2: on an empty booking table the reservation
persists and returns the new CONFIRMED booking. -/
theorem C2_preconditions_amended_witness :
    make_booking ⟨[], [⟨1, 1, 0, 5, 0⟩], [], []⟩ ⟨1, 1, 0, 5, 0⟩ "m" "a" 3 8 =
      .ok (⟨[], [⟨1, 1, 0, 5, 0⟩], [⟨8, 1, "m", "a", .CONFIRMED, 3⟩], []⟩,
        ⟨8, 1, "m", "a", .CONFIRMED, 3⟩) :=
  (C2_preconditions_amended ⟨[], [⟨1, 1, 0, 5, 0⟩], [], []⟩ ⟨1, 1, 0, 5, 0⟩
    "m" "a" 3 8).2.2.2 (by decide) (by decide) (by decide)

/-- Claim C3 is contradicted by the code: `Slot.is_full` and
`Slot.remaining` count every booking row of the slot via
`len(self.bookings)`, regardless of status.  On a slot with capacity 1
whose only booking is CANCELLED the code reports `is_full = True` and
`remaining = 0`, while the CONFIRMED count is 0 (claim and spec demand
`is_full = False`, `remaining = 1`), and `make_booking` still accepts a
new reservation on this allegedly full slot. -/
theorem C3_derived_fields_counterexample :
    Slot.is_full ⟨[], [⟨1, 1, 0, 1, 0⟩], [⟨7, 1, "n", "a", .CANCELLED, 0⟩], []⟩
      ⟨1, 1, 0, 1, 0⟩ = true ∧
    Slot.remaining ⟨[], [⟨1, 1, 0, 1, 0⟩], [⟨7, 1, "n", "a", .CANCELLED, 0⟩], []⟩
      ⟨1, 1, 0, 1, 0⟩ = 0 ∧
    booking_count ⟨[], [⟨1, 1, 0, 1, 0⟩], [⟨7, 1, "n", "a", .CANCELLED, 0⟩], []⟩
      1 = 0 ∧
    make_booking ⟨[], [⟨1, 1, 0, 1, 0⟩], [⟨7, 1, "n", "a", .CANCELLED, 0⟩], []⟩
      ⟨1, 1, 0, 1, 0⟩ "m" "b" 3 8 =
      .ok (⟨[], [⟨1, 1, 0, 1, 0⟩], [⟨7, 1, "n", "a", .CANCELLED, 0⟩,
        ⟨8, 1, "m", "b", .CONFIRMED, 3⟩], []⟩, ⟨8, 1, "m", "b", .CONFIRMED, 3⟩) :=
  ⟨rfl, rfl, rfl, rfl⟩

/-- Claim C4: on a CONFIRMED booking the pure domain cancellation
(`crud.cancel_booking`) flips its status to CANCELLED, the
request-facing cancellation agrees with it, exactly one unit of CONFIRMED
capacity is freed, and a subsequent reservation by a different e-mail
(one with no stored row on the slot) succeeds; on an already-CANCELLED
booking the pure operation returns the store and the booking unchanged
while the request-facing operation fails with AlreadyCancelled
(HTTP 400, "Booking already cancelled.").  Hypotheses: primary-key
uniqueness of booking ids, the booking is stored and CONFIRMED, the slot
is its slot, the capacity bound held before the cancellation, and the new
row is collision-free. -/
theorem C4_cancel_semantics (db : DB) (b : Booking) (slot : Slot)
    (name2 email2 : String) (now : Int) (fid : Nat)
    (hids : (db.bookings.map Booking.id).Nodup)
    (hb : b ∈ db.bookings) (hconf : b.status = .CONFIRMED)
    (hslot : slot.id = b.slot_id)
    (hcap : booking_count db slot.id ≤ slot.max_bookings)
    (hfresh : ∀ x ∈ db.bookings, ¬ x.id = fid)
    (hemail : ∀ x ∈ db.bookings, ¬ (x.slot_id = slot.id ∧ x.email = email2)) :
    (crud_cancel_booking db b).2.status = .CANCELLED ∧
    service_cancel_booking db b = .ok (crud_cancel_booking db b) ∧
    booking_count (crud_cancel_booking db b).1 slot.id + 1 =
      booking_count db slot.id ∧
    make_booking (crud_cancel_booking db b).1 slot name2 email2 now fid =
      .ok ({ (crud_cancel_booking db b).1 with bookings :=
          ((crud_cancel_booking db b).1.bookings ++
            [⟨fid, slot.id, name2, email2, .CONFIRMED, now⟩]) },
        ⟨fid, slot.id, name2, email2, .CONFIRMED, now⟩) ∧
    (∀ b2, b2.status = .CANCELLED →
      crud_cancel_booking db b2 = (db, b2) ∧
      service_cancel_booking db b2 =
        .error (.httpBadRequest "Booking already cancelled.")) := by
  have hncc : ¬ b.status = .CANCELLED := by rw [hconf]; exact fun h => by cases h
  have hcrud : crud_cancel_booking db b =
      ({ db with bookings := (db.bookings.map (fun x =>
          if x.id = b.id then { b with status := .CANCELLED } else x)) },
        { b with status := .CANCELLED }) := by
    unfold crud_cancel_booking
    rw [if_neg hncc]
  have hdec : booking_count (crud_cancel_booking db b).1 slot.id + 1 =
      booking_count db slot.id := by
    rw [hcrud]
    unfold booking_count
    exact countP_cancel_decrement _ hids hb (by simp)
      (decide_eq_true ⟨hslot.symm, hconf⟩)
  refine ⟨by rw [hcrud], ?_, hdec, ?_, ?_⟩
  · unfold service_cancel_booking
    rw [if_neg hncc]
  · have hex : booking_exists (crud_cancel_booking db b).1 slot.id email2
        = false := by
      rw [hcrud]
      unfold booking_exists
      have hz : List.countP (fun x =>
          decide (x.slot_id = slot.id ∧ x.email = email2 ∧
            x.status = BookingStatus.CONFIRMED))
          ((db.bookings.map (fun x =>
            if x.id = b.id then { b with status := .CANCELLED } else x))) = 0 := by
        rw [List.countP_eq_zero]
        intro y hy
        obtain ⟨x, hx, hxy⟩ := List.mem_map.mp hy
        subst hxy
        by_cases hxid : x.id = b.id
        · simp [hxid]
        · simp only [if_neg hxid, decide_eq_true_eq]
          rintro ⟨hs, he, -⟩
          exact (hemail x hx) ⟨hs, he⟩
      rw [hz]
      simp
    have hcap2 : booking_count (crud_cancel_booking db b).1 slot.id <
        slot.max_bookings := by omega
    have hfree2 : ∀ x ∈ (crud_cancel_booking db b).1.bookings,
        ¬ (x.id = fid ∨ (x.slot_id = slot.id ∧ x.email = email2)) := by
      rw [hcrud]
      intro y hy
      obtain ⟨x, hx, hxy⟩ := List.mem_map.mp hy
      subst hxy
      by_cases hxid : x.id = b.id
      · simp only [if_pos hxid]
        rintro (hc | ⟨hc, hd⟩)
        · exact (hfresh b hb) hc
        · exact (hemail b hb) ⟨hc, hd⟩
      · simp only [if_neg hxid]
        rintro (hc | ⟨hc, hd⟩)
        · exact (hfresh x hx) hc
        · exact (hemail x hx) ⟨hc, hd⟩
    exact make_booking_succeeds hex hcap2 hfree2
  · intro b2 hb2
    constructor
    · unfold crud_cancel_booking
      rw [if_pos hb2]
    · unfold service_cancel_booking
      rw [if_pos hb2]

/-- Witness for C4 at a concrete store: a full slot of capacity 1, the
CONFIRMED booking of "a" is cancelled, after which "b" can reserve. -/
theorem C4_cancel_semantics_witness :
    booking_count (crud_cancel_booking
      ⟨[], [⟨1, 1, 0, 1, 0⟩], [⟨7, 1, "n", "a", .CONFIRMED, 0⟩], []⟩
      ⟨7, 1, "n", "a", .CONFIRMED, 0⟩).1 1 + 1 =
      booking_count
        ⟨[], [⟨1, 1, 0, 1, 0⟩], [⟨7, 1, "n", "a", .CONFIRMED, 0⟩], []⟩ 1 ∧
    make_booking (crud_cancel_booking
      ⟨[], [⟨1, 1, 0, 1, 0⟩], [⟨7, 1, "n", "a", .CONFIRMED, 0⟩], []⟩
      ⟨7, 1, "n", "a", .CONFIRMED, 0⟩).1 ⟨1, 1, 0, 1, 0⟩ "m" "b" 3 8 =
      .ok ({ (crud_cancel_booking
          ⟨[], [⟨1, 1, 0, 1, 0⟩], [⟨7, 1, "n", "a", .CONFIRMED, 0⟩], []⟩
          ⟨7, 1, "n", "a", .CONFIRMED, 0⟩).1 with bookings :=
          ((crud_cancel_booking
            ⟨[], [⟨1, 1, 0, 1, 0⟩], [⟨7, 1, "n", "a", .CONFIRMED, 0⟩], []⟩
            ⟨7, 1, "n", "a", .CONFIRMED, 0⟩).1.bookings ++
            [⟨8, 1, "m", "b", .CONFIRMED, 3⟩]) },
        ⟨8, 1, "m", "b", .CONFIRMED, 3⟩) := by
  have h := C4_cancel_semantics
    ⟨[], [⟨1, 1, 0, 1, 0⟩], [⟨7, 1, "n", "a", .CONFIRMED, 0⟩], []⟩
    ⟨7, 1, "n", "a", .CONFIRMED, 0⟩ ⟨1, 1, 0, 1, 0⟩ "m" "b" 3 8
    (by decide) (by decide) rfl rfl (by decide)
    (by decide) (by decide)
  exact ⟨h.2.2.1, h.2.2.2.1⟩

/-- The recomputation makes the rating columns of the target event a
correct aggregate of its current review set. -/
theorem recompute_correct (db : DB) (eid : Nat) :
    ratingFieldsCorrect (recompute_event_rating db eid) eid := by
  intro e he heid
  simp only [show event_reviews_of (recompute_event_rating db eid) eid
    = event_reviews_of db eid from rfl]
  unfold recompute_event_rating at he
  obtain ⟨e0, he0, hge⟩ := List.mem_map.mp he
  by_cases h0 : e0.id = eid
  · rw [if_pos h0] at hge
    subst hge
    refine ⟨rfl, ?_⟩
    by_cases hc : (event_reviews_of db eid).length = 0
    · have hnil : event_reviews_of db eid = [] := List.length_eq_zero.mp hc
      simp only [if_pos hc]
      exact hnil
    · simp only [if_neg hc]
      refine ⟨fun hnil => hc (by rw [hnil]; rfl), ?_⟩
      unfold sum_ratings
      exact div_mul_cancel₀ _ (Nat.cast_ne_zero.mpr hc)
  · rw [if_neg h0] at hge
    subst hge
    exact absurd heid h0

/-- The recomputation is idempotent: a second run reads the same review
set and writes the same aggregate values. -/
theorem recompute_idem (db : DB) (eid : Nat) :
    recompute_event_rating (recompute_event_rating db eid) eid =
      recompute_event_rating db eid := by
  unfold recompute_event_rating event_reviews_of
  simp only [List.map_map]
  congr 1
  refine List.map_congr_left ?_
  intro e he
  simp only [Function.comp_apply]
  split_ifs <;> rfl

/-- Claim C6: review creation, update and deletion each leave the
event's denormalised rating columns equal to the pure aggregate of the
event's current review set — the count is the number of reviews, the
average is their arithmetic mean, and with no reviews (for example after
deleting the only one) the average is NULL and the count 0; the
recomputation is idempotent. -/
theorem C6_rating_aggregate (db : DB) (eid booking_id : Nat) (rtg : Nat)
    (cm : Option String) (now : Int) (fid : Nat) (rv : Review)
    (r2 : Option Nat) (c2 : Option String) :
    (∀ db2 r, create_review db eid booking_id rtg cm now fid = .ok (db2, r) →
      ratingFieldsCorrect db2 eid) ∧
    ratingFieldsCorrect (update_review db rv r2 c2).1 rv.event_id ∧
    ratingFieldsCorrect (delete_review db rv) rv.event_id ∧
    (event_reviews_of (delete_review db rv) rv.event_id = [] →
      ∀ e ∈ (delete_review db rv).events, e.id = rv.event_id →
        e.rating_avg = none ∧ e.rating_count = 0) ∧
    recompute_event_rating (recompute_event_rating db eid) eid =
      recompute_event_rating db eid := by
  refine ⟨?_, ?_, ?_, ?_, recompute_idem db eid⟩
  · intro db2 r hcr
    unfold create_review at hcr
    split_ifs at hcr with hex
    all_goals try exact Except.noConfusion hcr
    have h2 := congrArg Prod.fst (Except.ok.inj hcr)
    simp only at h2
    rw [← h2]
    exact recompute_correct _ eid
  · exact recompute_correct _ rv.event_id
  · exact recompute_correct _ rv.event_id
  · intro hnil e he heid
    have h := recompute_correct
      { db with reviews :=
          (db.reviews.filter (fun r => decide (¬ r.id = rv.id))) }
      rv.event_id e he heid
    obtain ⟨hcnt, havg⟩ := h
    cases harv : e.rating_avg with
    | none =>
      refine ⟨rfl, ?_⟩
      rw [hcnt]
      have hnil2 : event_reviews_of (recompute_event_rating
          { db with reviews :=
            (db.reviews.filter (fun r => decide (¬ r.id = rv.id))) }
          rv.event_id) rv.event_id = [] := hnil
      rw [hnil2]
      rfl
    | some q =>
      rw [harv] at havg
      exact absurd hnil havg.1

/-- Witness for C6: creating the first review (rating 4) for event 1 on
an empty review table leaves correct aggregates. -/
theorem C6_rating_aggregate_witness :
    ratingFieldsCorrect (recompute_event_rating
      ⟨[⟨1, "t", "d", "h", "music", 60, 0, "USD", none, 0, "UTC", none, 0⟩],
        [], [], [⟨5, 1, 9, 4, none, 2⟩]⟩ 1) 1 :=
  (C6_rating_aggregate
    ⟨[⟨1, "t", "d", "h", "music", 60, 0, "USD", none, 0, "UTC", none, 0⟩],
      [], [], []⟩ 1 9 4 none 2 5 ⟨0, 0, 0, 1, none, 0⟩ none none).1
    (recompute_event_rating
      ⟨[⟨1, "t", "d", "h", "music", 60, 0, "USD", none, 0, "UTC", none, 0⟩],
        [], [], [⟨5, 1, 9, 4, none, 2⟩]⟩ 1)
    ⟨5, 1, 9, 4, none, 2⟩ rfl

/-- Claim C7: `add_review` fails with BookingNotConfirmed (HTTP 400,
"Cannot review an unconfirmed booking.") when the booking is not
CONFIRMED; fails with ReviewAlreadyExists (HTTP 409, "This booking
already has a review.") when a review for the booking exists; otherwise
persists exactly one review and applies the rating recomputation for the
parent event (via `booking.slot.event_id`) synchronously before
returning.  `slot` is the row of the `booking.slot` relationship. -/
theorem C7_add_review (db : DB) (booking : Booking) (slot : Slot)
    (rtg : Nat) (cm : Option String) (now : Int) (fid : Nat)
    (hslot : slot.id = booking.slot_id) :
    (¬ booking.status = .CONFIRMED →
      add_review db booking slot rtg cm now fid =
        .error (.httpBadRequest "Cannot review an unconfirmed booking.")) ∧
    (booking.status = .CONFIRMED →
      (∃ r ∈ db.reviews, r.booking_id = booking.id) →
      add_review db booking slot rtg cm now fid =
        .error (.httpConflict "This booking already has a review.")) ∧
    (booking.status = .CONFIRMED →
      (∀ r ∈ db.reviews, ¬ r.booking_id = booking.id) →
      add_review db booking slot rtg cm now fid =
        .ok (recompute_event_rating
          { db with reviews := db.reviews ++
            [⟨fid, slot.event_id, booking.id, rtg, cm, now⟩] } slot.event_id,
          ⟨fid, slot.event_id, booking.id, rtg, cm, now⟩)) := by
  refine ⟨?_, ?_, ?_⟩
  · intro h
    unfold add_review
    rw [if_pos h]
  · intro hc hex
    have hrex : review_exists db booking.id = true := by
      unfold review_exists
      obtain ⟨r, hr, hrb⟩ := hex
      exact decide_eq_true (List.countP_pos_iff.mpr ⟨r, hr, decide_eq_true hrb⟩)
    unfold add_review
    rw [if_neg (not_not_intro hc), if_pos hrex]
  · intro hc hno
    have hz : db.reviews.countP (fun r => decide (r.booking_id = booking.id))
        = 0 :=
      List.countP_eq_zero.mpr (fun r hr => by simpa using hno r hr)
    have hrex : review_exists db booking.id = false := by
      unfold review_exists
      rw [hz]
      rfl
    unfold add_review create_review
    rw [if_neg (not_not_intro hc)]
    have hne : ¬ (review_exists db booking.id = true) := fun h =>
      Bool.false_ne_true (hrex ▸ h)
    rw [if_neg hne, if_neg hne]

/-- Witness for C7: reviewing a CONFIRMED, not-yet-reviewed booking
persists the review and recomputes the parent event's rating. -/
theorem C7_add_review_witness :
    add_review ⟨[], [⟨1, 1, 0, 1, 0⟩], [⟨7, 1, "n", "a", .CONFIRMED, 0⟩], []⟩
      ⟨7, 1, "n", "a", .CONFIRMED, 0⟩ ⟨1, 1, 0, 1, 0⟩ 5 none 9 3 =
      .ok (recompute_event_rating ⟨[], [⟨1, 1, 0, 1, 0⟩],
          [⟨7, 1, "n", "a", .CONFIRMED, 0⟩], [⟨3, 1, 7, 5, none, 9⟩]⟩ 1,
        ⟨3, 1, 7, 5, none, 9⟩) :=
  (C7_add_review ⟨[], [⟨1, 1, 0, 1, 0⟩], [⟨7, 1, "n", "a", .CONFIRMED, 0⟩], []⟩
    ⟨7, 1, "n", "a", .CONFIRMED, 0⟩ ⟨1, 1, 0, 1, 0⟩ 5 none 9 3 rfl).2.2
    rfl (by decide)

/-- The NULLS LAST descending key comparison, read through the rank that
identifies NULL (no recent confirmed booking) with count 0.  Sound
because a present group always has count at least 1. -/
theorem popDescNullsLastBefore_iff (db : DB) (now : Int) (a b : Event) :
    popDescNullsLastBefore (pop_key db now a) (pop_key db now b) = true ↔
      pop_count db now b.id < pop_count db now a.id := by
  unfold pop_key popDescNullsLastBefore
  by_cases ha : 0 < pop_count db now a.id
  · by_cases hb : 0 < pop_count db now b.id
    · rw [if_pos ha, if_pos hb]
      simp
    · rw [if_pos ha, if_neg hb]
      exact iff_of_true rfl (by omega)
  · by_cases hb : 0 < pop_count db now b.id
    · rw [if_neg ha, if_pos hb]
      exact iff_of_false Bool.false_ne_true (by omega)
    · rw [if_neg ha, if_neg hb]
      exact iff_of_false Bool.false_ne_true (by omega)

/-- The popularity ORDER BY in propositional form: larger recent
CONFIRMED booking count first, ties broken by creation time descending. -/
theorem popularity_le_iff (db : DB) (now : Int) (a b : Event) :
    popularity_le db now a b = true ↔
      (pop_count db now b.id < pop_count db now a.id ∨
        (¬ pop_count db now a.id < pop_count db now b.id ∧
          b.created_at ≤ a.created_at)) := by
  have h2 : (popDescNullsLastBefore (pop_key db now b) (pop_key db now a)
      = false) ↔ ¬ pop_count db now a.id < pop_count db now b.id := by
    rw [← popDescNullsLastBefore_iff db now b a]
    exact Bool.eq_false_iff
  unfold popularity_le
  rw [Bool.or_eq_true, Bool.and_eq_true, Bool.not_eq_true',
    popDescNullsLastBefore_iff, h2, decide_eq_true_eq]

/-- Transitivity of the popularity order. -/
theorem popularity_le_trans (db : DB) (now : Int) :
    ∀ a b c : Event, popR db now a b → popR db now b c → popR db now a c := by
  intro a b c hab hbc
  unfold popR at *
  rw [popularity_le_iff] at hab hbc ⊢
  rcases hab with h | ⟨h1, h2⟩ <;> rcases hbc with g | ⟨g1, g2⟩
  · left; omega
  · left; omega
  · left; omega
  · right; exact ⟨by omega, le_trans g2 h2⟩

/-- Totality of the popularity order. -/
theorem popularity_le_total (db : DB) (now : Int) :
    ∀ a b : Event, popR db now a b ∨ popR db now b a := by
  intro a b
  unfold popR
  rw [popularity_le_iff, popularity_le_iff]
  rcases lt_trichotomy (pop_count db now a.id) (pop_count db now b.id)
    with h | h | h
  · right; left; exact h
  · rcases le_total a.created_at b.created_at with hc | hc
    · right; right; exact ⟨by omega, hc⟩
    · left; right; exact ⟨by omega, hc⟩
  · left; left; exact h

/-- Claim C8: under `sort=popularity` the query returns every event
accepted by the filters (outer join: zero-recent-booking events still
appear), in an order sorted by the count of CONFIRMED bookings with
`booked_at` in the trailing 30 days over the event's slots, descending
with NULL/zero counts last and creation time descending as tiebreak; an
earlier event never has a smaller count than a later one; and concretely
an event with 5 recent confirmed bookings ranks above one with no
bookings and above one whose two confirmed bookings are older than 30
days. -/
theorem C8_popularity_sort (db : DB) (now : Int) (φ : Event → Bool) :
    (popularity_query db now φ).Perm (db.events.filter φ) ∧
    List.Sorted (popR db now) (popularity_query db now φ) ∧
    (∀ a b : Event, popR db now a b →
      pop_count db now b.id ≤ pop_count db now a.id) ∧
    (pop_count ⟨[⟨1, "", "", "", "", 60, 0, "USD", none, 0, "UTC", none, 100⟩,
        ⟨2, "", "", "", "", 60, 0, "USD", none, 0, "UTC", none, 50⟩,
        ⟨3, "", "", "", "", 60, 0, "USD", none, 0, "UTC", none, 99⟩],
        [⟨1, 1, 0, 9, 0⟩, ⟨2, 2, 0, 9, 0⟩, ⟨3, 3, 0, 9, 0⟩],
        [⟨11, 1, "u", "a1", .CONFIRMED, 500000⟩,
         ⟨12, 1, "u", "a2", .CONFIRMED, 500000⟩,
         ⟨13, 1, "u", "a3", .CONFIRMED, 500000⟩,
         ⟨14, 1, "u", "a4", .CONFIRMED, 500000⟩,
         ⟨15, 1, "u", "a5", .CONFIRMED, 500000⟩,
         ⟨16, 3, "u", "b1", .CONFIRMED, 100⟩,
         ⟨17, 3, "u", "b2", .CONFIRMED, 100⟩], []⟩ 3000000 1 = 5 ∧
      pop_count ⟨[⟨1, "", "", "", "", 60, 0, "USD", none, 0, "UTC", none, 100⟩,
        ⟨2, "", "", "", "", 60, 0, "USD", none, 0, "UTC", none, 50⟩,
        ⟨3, "", "", "", "", 60, 0, "USD", none, 0, "UTC", none, 99⟩],
        [⟨1, 1, 0, 9, 0⟩, ⟨2, 2, 0, 9, 0⟩, ⟨3, 3, 0, 9, 0⟩],
        [⟨11, 1, "u", "a1", .CONFIRMED, 500000⟩,
         ⟨12, 1, "u", "a2", .CONFIRMED, 500000⟩,
         ⟨13, 1, "u", "a3", .CONFIRMED, 500000⟩,
         ⟨14, 1, "u", "a4", .CONFIRMED, 500000⟩,
         ⟨15, 1, "u", "a5", .CONFIRMED, 500000⟩,
         ⟨16, 3, "u", "b1", .CONFIRMED, 100⟩,
         ⟨17, 3, "u", "b2", .CONFIRMED, 100⟩], []⟩ 3000000 3 = 0 ∧
      popularity_query ⟨[⟨1, "", "", "", "", 60, 0, "USD", none, 0, "UTC", none, 100⟩,
        ⟨2, "", "", "", "", 60, 0, "USD", none, 0, "UTC", none, 50⟩,
        ⟨3, "", "", "", "", 60, 0, "USD", none, 0, "UTC", none, 99⟩],
        [⟨1, 1, 0, 9, 0⟩, ⟨2, 2, 0, 9, 0⟩, ⟨3, 3, 0, 9, 0⟩],
        [⟨11, 1, "u", "a1", .CONFIRMED, 500000⟩,
         ⟨12, 1, "u", "a2", .CONFIRMED, 500000⟩,
         ⟨13, 1, "u", "a3", .CONFIRMED, 500000⟩,
         ⟨14, 1, "u", "a4", .CONFIRMED, 500000⟩,
         ⟨15, 1, "u", "a5", .CONFIRMED, 500000⟩,
         ⟨16, 3, "u", "b1", .CONFIRMED, 100⟩,
         ⟨17, 3, "u", "b2", .CONFIRMED, 100⟩], []⟩ 3000000 (fun _ => true) =
        [⟨1, "", "", "", "", 60, 0, "USD", none, 0, "UTC", none, 100⟩,
         ⟨3, "", "", "", "", 60, 0, "USD", none, 0, "UTC", none, 99⟩,
         ⟨2, "", "", "", "", 60, 0, "USD", none, 0, "UTC", none, 50⟩]) := by
  haveI htot : IsTotal Event (popR db now) := ⟨popularity_le_total db now⟩
  haveI htr : IsTrans Event (popR db now) := ⟨popularity_le_trans db now⟩
  refine ⟨List.perm_insertionSort _ _, List.sorted_insertionSort _ _, ?_, ?_⟩
  · intro a b hab
    unfold popR at hab
    rw [popularity_le_iff] at hab
    rcases hab with h | ⟨h1, -⟩ <;> omega
  · refine ⟨by decide, by decide, by decide⟩

/-- Python `round` never lands further than half a unit from its
argument: `pyRound` rounds to a nearest integer. -/
theorem pyRound_nearest (q : ℚ) : |((pyRound q : ℤ) : ℚ) - q| ≤ 1 / 2 := by
  have h0 : (0 : ℚ) ≤ Int.fract q := Int.fract_nonneg q
  have h1 : Int.fract q < 1 := Int.fract_lt_one q
  have hs : ((⌊q⌋ : ℤ) : ℚ) + Int.fract q = q := Int.floor_add_fract q
  unfold pyRound
  split_ifs with ha hb hc
  · have h2 : ((⌊q⌋ : ℤ) : ℚ) - q = -(Int.fract q) := by linarith
    rw [h2, abs_neg, abs_of_nonneg h0]
    linarith
  · have h2 : ((⌊q⌋ + 1 : ℤ) : ℚ) - q = 1 - Int.fract q := by
      push_cast
      linarith
    rw [h2, abs_of_nonneg (by linarith)]
    linarith
  · have h2 : ((⌊q⌋ : ℤ) : ℚ) - q = -(Int.fract q) := by linarith
    rw [h2, abs_neg, abs_of_nonneg h0]
    linarith
  · have h2 : ((⌊q⌋ + 1 : ℤ) : ℚ) - q = 1 - Int.fract q := by
      push_cast
      linarith
    rw [h2, abs_of_nonneg (by linarith)]
    linarith

/-- Claim C9: `convert_minor` is the identity whenever the two currencies
are equal, for any rate table; for distinct currencies both present in
the table (with a nonzero source rate, as Python float division demands)
it returns the amount times `rates[to]/rates[from]` rounded to a nearest
integer minor unit; concretely 4500 USD→EUR at rates USD 1.0, EUR 0.9
gives 4050; and when either currency is absent it fails with MissingRate
(`ValueError("Missing FX rate for <code>")`, naming the `to` currency
first, as Python evaluates that lookup first). -/
theorem C9_convert_minor :
    (∀ (amount : ℤ) (c : String) (rates : List (String × ℚ)),
      convert_minor amount c c rates = .ok amount) ∧
    (∀ (amount : ℤ) (fc tc : String) (rates : List (String × ℚ)) (rf rt : ℚ),
      ¬ fc = tc → lookupRate rates tc = some rt →
      lookupRate rates fc = some rf → ¬ rf = 0 →
      convert_minor amount fc tc rates =
        .ok (pyRound ((amount : ℚ) * (rt / rf))) ∧
      |((pyRound ((amount : ℚ) * (rt / rf)) : ℤ) : ℚ) -
        (amount : ℚ) * (rt / rf)| ≤ 1 / 2) ∧
    convert_minor 4500 "USD" "EUR" [("USD", 1), ("EUR", 9 / 10)] =
      .ok 4050 ∧
    (∀ (amount : ℤ) (fc tc : String) (rates : List (String × ℚ)),
      ¬ fc = tc → lookupRate rates tc = none →
      convert_minor amount fc tc rates =
        .error (.valueError ("Missing FX rate for " ++ tc))) ∧
    (∀ (amount : ℤ) (fc tc : String) (rates : List (String × ℚ)) (rt : ℚ),
      ¬ fc = tc → lookupRate rates tc = some rt →
      lookupRate rates fc = none →
      convert_minor amount fc tc rates =
        .error (.valueError ("Missing FX rate for " ++ fc))) := by
  refine ⟨?_, ?_, ?_, ?_, ?_⟩
  · intro amount c rates
    unfold convert_minor
    rw [if_pos rfl]
  · intro amount fc tc rates rf rt hne hto hfc hrf
    refine ⟨?_, pyRound_nearest _⟩
    simp only [convert_minor, if_neg hne, hto, hfc, if_neg hrf]
  · have hne : ¬ ("USD" : String) = "EUR" := by decide
    have hto : lookupRate [("USD", (1 : ℚ)), ("EUR", 9 / 10)] "EUR"
        = some (9 / 10) := rfl
    have hfc : lookupRate [("USD", (1 : ℚ)), ("EUR", 9 / 10)] "USD"
        = some 1 := rfl
    simp only [convert_minor, if_neg hne, hto, hfc,
      if_neg (by norm_num : ¬ (1 : ℚ) = 0)]
    have harg : ((4500 : ℤ) : ℚ) * ((9 / 10) / 1) = 4050 := by norm_num
    rw [harg]
    have hpr : pyRound (4050 : ℚ) = 4050 := by
      unfold pyRound Int.fract
      rw [show (⌊(4050 : ℚ)⌋ : ℤ) = 4050 from rfl]
      norm_num
    rw [hpr]
  · intro amount fc tc rates hne hto
    simp only [convert_minor, if_neg hne, hto]
  · intro amount fc tc rates rt hne hto hfc
    simp only [convert_minor, if_neg hne, hto, hfc]

/-- Witness for C9 at the concrete conversion: both rates found, the
source rate nonzero, result the rounded product. -/
theorem C9_convert_minor_witness :
    convert_minor 4500 "USD" "EUR" [("USD", 1), ("EUR", 9 / 10)] =
      .ok (pyRound ((4500 : ℚ) * ((9 / 10) / 1))) :=
  (C9_convert_minor.2.1 4500 "USD" "EUR" [("USD", 1), ("EUR", 9 / 10)]
    1 (9 / 10) (by decide) rfl rfl (by norm_num)).1

/-- Claim C10: every call of `crud.events.list_events` raises `NameError`
before producing any result — the first unresolvable name its body reads
is `EventFilter` (line 130), and `timedelta` (line 142) is equally
unbound in the module, since `crud/events.py` imports neither; both names
are bound in `services/search.py`, so the listing path works only through
`services.search.build_event_query`. -/
theorem C10_list_events_name_error :
    (∀ (db : DB) (page size : Nat) (search category : Option String)
        (price_min price_max : Option Nat) (sort : String),
      list_events db page size search category price_min price_max sort =
        .error (.nameError "EventFilter")) ∧
    list_events_first_unresolved = some "EventFilter" ∧
    ¬ "EventFilter" ∈ crud_events_module_globals ∧
    ¬ "timedelta" ∈ crud_events_module_globals ∧
    "EventFilter" ∈ services_search_module_globals ∧
    "timedelta" ∈ services_search_module_globals := by
  refine ⟨fun db page size search category price_min price_max sort => rfl,
    rfl, by decide, by decide, by decide, by decide⟩

end BookMyEvent
